import Mathlib

/-!
Verification of the tpxhsSpider crawler core.

Shallow embedding of the Python sources:
  scraper.py            (parse_count, normalize_url, pending frontier, save_to_json)
  process_result.py     (result-store merge, progress checkpoint)
  automation_manager.py (keyword file loader)
  browser_manager.py    (detail-page field extraction, search-result collection loop)

Modelling conventions:
  * Python strings are Lean `String`s, manipulated through `List Char`.
  * A raised Python exception is `Option.none`; normal returns are `some`.
  * JSON values are the inductive `Json` below; a Python value read from a
    JSON file is one of its constructors.  `dict.get` returning `None` for a
    missing key is modelled by `pyGet`, which collapses a missing key and a
    stored JSON null to `Json.null`, exactly as Python collapses both to `None`.
  * Python `float` arithmetic inside `parse_count` is modelled with exact
    rationals.  All values reaching it are non-negative decimal literals; at
    every concrete input appearing in the claims the binary double rounding
    agrees with the exact rational value.
  * Python `dict` equality ignores key order; `Json.beq` compares field lists
    in order.  The program only ever compares `url` fields, which hold scalars.
-/

/-! ### Character and string primitives -/

/-- The characters `str.strip()` removes (ASCII whitespace; the program's
inputs contain no non-ASCII whitespace). -/
def pyIsSpace (c : Char) : Bool :=
  c = ' ' || c = '\t' || c = '\n' || c = '\r' || c = '\x0b' || c = '\x0c'

/-- `str.strip()` on a character list. -/
def stripL (cs : List Char) : List Char :=
  ((cs.dropWhile pyIsSpace).reverse.dropWhile pyIsSpace).reverse

/-- Does `l` start with `pre`? (`str.startswith`). -/
def startsWithL : List Char → List Char → Bool
  | [], _ => true
  | _ :: _, [] => false
  | a :: pre, b :: l => a = b && startsWithL pre l

/-- Does `needle` occur as a contiguous substring of `hay`? (Python `in`). -/
def hasSub (needle : List Char) : List Char → Bool
  | [] => startsWithL needle []
  | c :: cs => startsWithL needle (c :: cs) || hasSub needle cs

/-- Python `sub in hay` on strings. -/
def hasSubS (hay sub : String) : Bool := hasSub sub.toList hay.toList

/-- `str.split(sep)` for a non-empty separator, with fuel (the fuel
`l.length + 1` always suffices). -/
def pySplitAux (sep : List Char) : Nat → List Char → List Char → List (List Char)
  | 0, rest, acc => [acc ++ rest]
  | _ + 1, [], acc => [acc]
  | fuel + 1, c :: cs, acc =>
    if startsWithL sep (c :: cs) then
      acc :: pySplitAux sep fuel (List.drop sep.length (c :: cs)) []
    else
      pySplitAux sep fuel cs (acc ++ [c])

/-- `str.split(sep)` (non-empty `sep`). -/
def pySplit (sep l : List Char) : List (List Char) := pySplitAux sep (l.length + 1) l []

/-- Leftmost maximal run of characters satisfying `p`
(`re.search` of `[class]+` returning the matched text). -/
def firstRun (p : Char → Bool) : List Char → Option (List Char)
  | [] => none
  | c :: cs => if p c then some (c :: cs.takeWhile p) else firstRun p cs

/-- The regex class `[a-zA-Z0-9]`. -/
def isAlnumAscii (c : Char) : Bool := c.isAlpha || c.isDigit

/-- The regex class `[\d.]` (ASCII; Python's `\d` also accepts other Unicode
digits, which never occur in this program's count strings). -/
def isDigitOrDot (c : Char) : Bool := c.isDigit || c = '.'

/-- Numeric value of a digit list. -/
def digitsVal (ds : List Char) : Nat :=
  ds.foldl (fun a c => a * 10 + (c.toNat - '0'.toNat)) 0

/-! ### JSON values -/

/-- JSON values as Python sees them after `json.load`.  Numbers are modelled
as integers (every number this program writes is one). -/
inductive Json where
  | null : Json
  | bool : Bool → Json
  | num : Int → Json
  | str : String → Json
  | arr : List Json → Json
  | obj : List (String × Json) → Json

mutual

/-- Python `==` on JSON-derived values. -/
def Json.beq : Json → Json → Bool
  | .null, .null => true
  | .bool a, .bool b => a = b
  | .num a, .num b => a = b
  | .str a, .str b => a = b
  | .arr xs, .arr ys => Json.beqList xs ys
  | .obj xs, .obj ys => Json.beqFields xs ys
  | _, _ => false

def Json.beqList : List Json → List Json → Bool
  | [], [] => true
  | x :: xs, y :: ys => Json.beq x y && Json.beqList xs ys
  | _, _ => false

def Json.beqFields : List (String × Json) → List (String × Json) → Bool
  | [], [] => true
  | (k1, v1) :: xs, (k2, v2) :: ys => k1 = k2 && Json.beq v1 v2 && Json.beqFields xs ys
  | _, _ => false

end

/-- `isinstance(x, dict)`. -/
def Json.isObj : Json → Bool
  | .obj _ => true
  | _ => false

/-- First binding of `key` in an association list (JSON objects from
`json.load` have unique keys; Python keeps the first parse wins aside). -/
def lookupField : List (String × Json) → String → Option Json
  | [], _ => none
  | (k, v) :: rest, key => if k = key then some v else lookupField rest key

/-- Key lookup distinguishing a missing key (`none`) from a stored value. -/
def Json.get : Json → String → Option Json
  | .obj fs, key => lookupField fs key
  | _, _ => none

/-- Python `d.get(key)`: both a missing key and a stored JSON null read back
as `None`. -/
def pyGet (j : Json) (key : String) : Json := (Json.get j key).getD Json.null

/-- Python `d[key] = v`: replace in place, or append a new key at the end. -/
def setAssoc : List (String × Json) → String → Json → List (String × Json)
  | [], key, v => [(key, v)]
  | (k, w) :: rest, key, v =>
    if k = key then (k, v) :: rest else (k, w) :: setAssoc rest key v

/-- `d[key] = v` on a JSON value (no-op on non-objects; the program only
assigns into dicts). -/
def Json.setField : Json → String → Json → Json
  | .obj fs, key, v => .obj (setAssoc fs key v)
  | j, _, _ => j

/-- Python values usable as `set` members; a list or dict raises `TypeError`. -/
def Json.isHashable : Json → Bool
  | .arr _ => false
  | .obj _ => false
  | _ => true

/-! ### Persisted files

Two granularities.  `FileState` covers the outcomes the scraper.py loaders
treat alike: `none` when the file is missing, `some none` when reading fails
with one of the exceptions those loaders catch (`OSError` on open/read, or
`json.JSONDecodeError` — an empty file included), and `some (some j)` when
the file parses to `j`.  `FileRead` below additionally distinguishes the
`UnicodeDecodeError` a present non-UTF-8 file raises inside `json.load`,
which `load_existing_data` and `load_pending_urls` do **not** catch. -/

/-- State of one persisted file, at the granularity of the caught error
classes. -/
abbrev FileState := Option (Option Json)

/-- `scraper.load_existing_data` on the caught outcomes: the parsed list, or
`[]` on a missing file, a caught read/parse error, or a non-list value.
(The uncaught `UnicodeDecodeError` path is modelled by `readExistingData`.) -/
def loadExistingData : FileState → List Json
  | some (some (Json.arr xs)) => xs
  | _ => []

/-- The fresh frontier dict built by `scraper.load_pending_urls`. -/
def defaultPendingJson : Json :=
  Json.obj [("keyword", Json.str ""), ("created_at", Json.str ""),
            ("urls", Json.arr []), ("scraped_urls", Json.arr [])]

/-- The fresh progress dict of `process_result.process_keyword_results`. -/
def defaultProgress (tk : Int) : Json :=
  Json.obj [("completed_keywords", Json.arr []), ("total_keywords", Json.num tk)]

/-- Outcome of opening, decoding and parsing a persisted file, distinguishing
the exception classes the loaders treat differently:
`missing` — the file does not exist; `ioError` — open/read raises `OSError`;
`undecodable` — the bytes are not valid UTF-8, so `json.load` raises
`UnicodeDecodeError` (a `ValueError` that is neither `json.JSONDecodeError`
nor `OSError`); `invalidJson` — the text is not valid JSON (an empty file
included), `json.JSONDecodeError`; `parsed j` — the file parses to `j`. -/
inductive FileRead where
  | missing : FileRead
  | ioError : FileRead
  | undecodable : FileRead
  | invalidJson : FileRead
  | parsed : Json → FileRead

/-- The caught-class view of a read outcome: `undecodable` has no image
because `except (json.JSONDecodeError, IOError)` does not cover it. -/
def FileRead.caught : FileRead → Option FileState
  | .missing => some none
  | .ioError => some (some none)
  | .undecodable => none
  | .invalidJson => some (some none)
  | .parsed j => some (some (some j))

/-- `scraper.load_existing_data` over the full exception taxonomy; `none` is
the uncaught `UnicodeDecodeError` propagating out of the loader. -/
def readExistingData : FileRead → Option (List Json)
  | .missing => some []
  | .ioError => some []
  | .undecodable => none
  | .invalidJson => some []
  | .parsed (Json.arr xs) => some xs
  | .parsed _ => some []

/-- `scraper.load_pending_urls` over the full exception taxonomy; `none` is
the uncaught `UnicodeDecodeError`. -/
def readPendingUrls : FileRead → Option Json
  | .missing => some defaultPendingJson
  | .ioError => some defaultPendingJson
  | .undecodable => none
  | .invalidJson => some defaultPendingJson
  | .parsed j => some (if j.isObj then j else defaultPendingJson)

/-- The progress-file load of `process_result.process_keyword_results`
(lines 83-91): its bare `except:` absorbs every exception, so every failing
outcome — `undecodable` included — and every non-dict value yields the fresh
default. -/
def readProgress (tk : Int) : FileRead → Json
  | .parsed j => if j.isObj then j else defaultProgress tk
  | _ => defaultProgress tk

/-! ### parse_count (scraper.py) -/

/-- Python `float` on a token drawn from `[\d.]+`: accepted iff it has at
least one digit and at most one dot.  The value is kept as the exact
rational `fst / 10 ^ snd`.  `none` models the `ValueError` that `float`
raises otherwise, which `parse_count` does not catch. -/
def parseDecimal (cs : List Char) : Option (Nat × Nat) :=
  let ip := cs.takeWhile Char.isDigit
  match cs.dropWhile Char.isDigit with
  | [] => if ip = [] then none else some (digitsVal ip, 0)
  | '.' :: fp =>
    if fp.all Char.isDigit ∧ (ip ≠ [] ∨ fp ≠ []) then
      some (digitsVal ip * 10 ^ fp.length + digitsVal fp, fp.length)
    else none
  | _ => none

/-- `int(v * mult)` for the non-negative exact value `v = v.1 / 10 ^ v.2`
(truncation; every value reaching it in `parse_count` is non-negative). -/
def scaledToInt (v : Nat × Nat) (mult : Nat) : Int :=
  Int.ofNat (v.1 * mult / 10 ^ v.2)

/-- `scraper.parse_count`.  `none` models an uncaught `ValueError` from
`float` on a malformed numeric token such as `"1.2.3"`. -/
def parseCount (s : String) : Option Int :=
  if s = "" then some 0
  else
    let t := stripL s.toList
    if t.contains '万' then
      match firstRun isDigitOrDot t with
      | some run =>
        match parseDecimal run with
        | some v => some (scaledToInt v 10000)
        | none => none
      | none => some 0
    else if t.contains '亿' then
      match firstRun isDigitOrDot t with
      | some run =>
        match parseDecimal run with
        | some v => some (scaledToInt v 100000000)
        | none => none
      | none => some 0
    else
      match firstRun Char.isDigit t with
      | some run => some (Int.ofNat (digitsVal run))
      | none => some 0

/-! ### normalize_url (scraper.py) -/

/-- Literal part of the pattern `xiaohongshu\.com/explore/[a-zA-Z0-9]+`. -/
def LIT1 : List Char := "xiaohongshu.com/explore/".toList

/-- Literal part of the pattern `xiaohongshu\.com/discovery/item/[a-zA-Z0-9]+`. -/
def LIT2 : List Char := "xiaohongshu.com/discovery/item/".toList

/-- Match a literal at the start of a list, returning the remainder. -/
def matchLit : List Char → List Char → Option (List Char)
  | [], rest => some rest
  | _ :: _, [] => none
  | a :: l, b :: m => if a = b then matchLit l m else none

/-- Try the pattern `lit` followed by `[a-zA-Z0-9]+` (greedy) at the start of
`s`; on success return the matched text. -/
def matchAt (lit s : List Char) : Option (List Char) :=
  match matchLit lit s with
  | none => none
  | some rest =>
    let run := rest.takeWhile isAlnumAscii
    if run = [] then none else some (lit ++ run)

/-- `re.search` for `lit` + `[a-zA-Z0-9]+`: leftmost match, returning the
matched text (`m.group(1)`; the whole pattern is the capture group). -/
def searchPat (lit : List Char) : List Char → Option (List Char)
  | [] => none
  | c :: cs =>
    match matchAt lit (c :: cs) with
    | some r => some r
    | none => searchPat lit cs

/-- `scraper.normalize_url`. -/
def normalizeUrl (url : String) : String :=
  if url = "" then ""
  else
    match searchPat LIT1 url.toList with
    | some r => ⟨r⟩
    | none =>
      match searchPat LIT2 url.toList with
      | some r => ⟨r⟩
      | none => url

/-! ### Pending frontier (scraper.add_urls_to_pending) -/

/-- The frontier dict as this program itself writes it.  (`add_urls_to_pending`
crashes before admitting anything when the loaded dict lacks the keys below
or holds them at other types, so such corrupt shapes admit no URL either.) -/
structure PendingData where
  keyword : String
  created_at : String
  urls : List String
  scraped_urls : List String
deriving DecidableEq

/-- The admission loop of `add_urls_to_pending` (lines 261-267): `existing`
is the running set seeded from the raw pending URLs, `scraped` the
`scraped_urls` set, `scrapedData` the normalized Result-Store urls. -/
def addLoop (scraped scrapedData : List String) :
    List String → List String → List String → Nat → List String × Nat
  | [], pend, _, n => (pend, n)
  | url :: rest, pend, existing, n =>
    let nu := normalizeUrl url
    if nu ≠ "" ∧ nu ∉ existing ∧ nu ∉ scraped ∧ nu ∉ scrapedData then
      addLoop scraped scrapedData rest (pend ++ [url]) (existing ++ [nu]) (n + 1)
    else
      addLoop scraped scrapedData rest pend existing n

/-- `scraper.add_urls_to_pending` on the loaded frontier state and the url
field values of the loaded Result Store; returns the updated frontier and
`(new_count, total_pending)`. -/
def addUrlsToPending (urls : List String) (keyword now : String)
    (pending : PendingData) (storeUrls : List String) :
    PendingData × Nat × Nat :=
  let p1 := if keyword ≠ "" then { pending with keyword := keyword } else pending
  let p2 := if p1.created_at = "" then { p1 with created_at := now } else p1
  let result := addLoop p2.scraped_urls (storeUrls.map normalizeUrl) urls p2.urls p2.urls 0
  ({ p2 with urls := result.1 }, result.2, result.1.length)

/-! ### save_to_json (scraper.py) -/

/-- `scraper.save_to_json` acting on the store file.  `none` models an
uncaught exception: `AttributeError` when a stored entry is not a dict,
`TypeError` when a url value is unhashable, `KeyError` when the record lacks
`"url"`.  On a skip the file value is returned untouched; on an append the
file is rewritten with the full new list. -/
def saveToJson (note : Json) (file : FileState) : Option (FileState × Bool × String) :=
  let existing := loadExistingData file
  if existing.all (fun item => item.isObj && (pyGet item "url").isHashable) then
    match Json.get note "url" with
    | none => none
    | some u =>
      if u.isHashable then
        if existing.any (fun item => Json.beq (pyGet item "url") u) then
          some (file, false, "该笔记已存在，跳过保存")
        else
          some (some (some (Json.arr (existing ++ [note]))), true,
                "共 " ++ toString (existing ++ [note]).length ++ " 条")
      else none
  else none

/-! ### Result-store merge and progress (process_result.py) -/

/-- The per-record merge of `process_keyword_results` (lines 69-76): append
iff no existing dict entry has an equal `url` value. -/
def mergeResult (history : List Json) (item : Json) : List Json :=
  if history.any (fun h => h.isObj && Json.beq (pyGet h "url") (pyGet item "url")) then
    history
  else
    history ++ [item]

/-- Two store entries collide when both are dicts with equal `url` values. -/
def urlClash (a b : Json) : Prop :=
  a.isObj = true ∧ b.isObj = true ∧ Json.beq (pyGet a "url") (pyGet b "url") = true

/-- No two records of the store share a url. -/
def NoDupUrls (xs : List Json) : Prop := List.Pairwise (fun a b => ¬ urlClash a b) xs

/-- The `completed_keywords` list as the update reads it, after the repair of
lines 93-94 (missing or non-list resets to `[]`). -/
def progressCompleted (p : Json) : List Json :=
  match Json.get p "completed_keywords" with
  | some (Json.arr xs) => xs
  | _ => []

/-- The progress update of `process_keyword_results` (lines 93-98): repair
`completed_keywords`, append the keyword unless already present, overwrite
`total_keywords`. -/
def updateProgress (p : Json) (keyword : String) (tk : Int) : Json :=
  let completed := progressCompleted p
  let completed' :=
    if completed.any (fun j => Json.beq j (Json.str keyword)) then completed
    else completed ++ [Json.str keyword]
  Json.setField (Json.setField p "completed_keywords" (Json.arr completed'))
    "total_keywords" (Json.num tk)

/-- Occurrences of `keyword` in a completed list (Python `==` membership). -/
def countKw (keyword : String) (xs : List Json) : Nat :=
  xs.countP (fun j => Json.beq j (Json.str keyword))

/-! ### Keyword file loader (automation_manager.py) -/

/-- One parsed work item. -/
structure KeywordItem where
  keyword : String
  count : Int
deriving DecidableEq

/-- Fallback default when a line carries no parseable count. -/
def MAX_NOTES_PER_KEYWORD : Int := 5

/-- Body of a Python `int()` literal after the optional sign:
`digit+ ('_' digit+)*`. -/
def intDigitsRest : List Char → Bool
  | [] => true
  | '_' :: [] => false
  | '_' :: d :: rest => d.isDigit && intDigitsRest rest
  | d :: rest => d.isDigit && intDigitsRest rest

/-- Accepts exactly the digit parts Python `int()` accepts. -/
def intDigits : List Char → Bool
  | [] => false
  | c :: rest => c.isDigit && intDigitsRest rest

/-- Python `int(s)` on an already-stripped string; `none` is `ValueError`. -/
def pyInt (cs : List Char) : Option Int :=
  match cs with
  | '+' :: rest =>
    if intDigits rest then some (Int.ofNat (digitsVal (rest.filter fun c => c ≠ '_'))) else none
  | '-' :: rest =>
    if intDigits rest then some (-(Int.ofNat (digitsVal (rest.filter fun c => c ≠ '_')))) else none
  | _ =>
    if intDigits cs then some (Int.ofNat (digitsVal (cs.filter fun c => c ≠ '_'))) else none

/-- `content.split(':', 1)`: the part before the first colon, and the part
after it when a colon exists. -/
def splitFirstColon : List Char → List Char × Option (List Char)
  | [] => ([], none)
  | ':' :: rest => ([], some rest)
  | c :: rest =>
    let p := splitFirstColon rest
    (c :: p.1, p.2)

/-- One iteration of the `parse_keywords` line loop: `none` when the line is
skipped (blank after stripping, or a `#` comment). -/
def parseKwLine (line : String) : Option KeywordItem :=
  let l := stripL line.toList
  if l = [] then none
  else if l.headD ' ' = '#' then none
  else
    let content := if startsWithL ['-', ' '] l then stripL (l.drop 2) else l
    let p := splitFirstColon content
    let count : Int :=
      match p.2 with
      | none => MAX_NOTES_PER_KEYWORD
      | some c =>
        match pyInt (stripL c) with
        | some n => n
        | none => MAX_NOTES_PER_KEYWORD
    some { keyword := ⟨stripL p.1⟩, count := count }

/-- File content split into lines as `readlines()` + `strip()` see it. -/
def pyLines (txt : String) : List String := (txt.toList.splitOn '\n').map List.asString

/-- `automation_manager.parse_keywords`; `none` is a missing file. -/
def parseKeywords (file : Option String) : List KeywordItem :=
  match file with
  | none => []
  | some txt =>
    (pyLines txt).foldl
      (fun acc line =>
        match parseKwLine line with
        | some item => acc ++ [item]
        | none => acc)
      []

/-! ### Detail-page extraction (browser_manager._scrape_page_content) -/

/-- A DOM element as the extractor reads it: its inner text and its `src`
and `style` attributes (`none` when absent). -/
structure Element where
  text : String
  src : Option String
  style : Option String
deriving DecidableEq

/-- A rendered page: each CSS selector yields its matched elements in
document order. -/
abbrev Env := String → List Element

/-- `SELECTORS["title"]` of scraper.py. -/
def titleSelectors : List String :=
  ["#detail-title", ".note-content .title", "[class*=\x27title\x27]"]

/-- `SELECTORS["content"]`. -/
def contentSelectors : List String :=
  ["#detail-desc", ".note-text", ".desc", "[class*=\x27desc\x27]"]

/-- `SELECTORS["likes"]`. -/
def likesSelectors : List String :=
  [".like-wrapper span", "[class*=\x27like\x27] span", ".engage-bar .like span"]

/-- `SELECTORS["collects"]`. -/
def collectsSelectors : List String :=
  [".collect-wrapper span", "[class*=\x27collect\x27] span", ".engage-bar .collect span"]

/-- `SELECTORS["comments"]`. -/
def commentsSelectors : List String :=
  [".chat-wrapper span", "[class*=\x27comment\x27] span", ".engage-bar .chat span"]

/-- `SELECTORS["author"]`. -/
def authorSelectors : List String :=
  [".author-wrapper .name", ".user-info .name", "[class*=\x27author\x27] .name"]

/-- `SELECTORS["images"]`. -/
def imageSelectors : List String :=
  [".carousel img", ".swiper-slide img", ".note-slider img", "[class*=\x27slider\x27] img"]

/-- The per-field selector loop: the first selector matching at least one
element supplies the first element's inner text; no match leaves the dict
key unset (`none`). -/
def firstMatchText (env : Env) : List String → Option String
  | [] => none
  | sel :: rest =>
    match env sel with
    | [] => firstMatchText env rest
    | e :: _ => some e.text

/-- `get_attribute("src") or get_attribute("style")`: first truthy value
(empty string is falsy). -/
def elementSrc (el : Element) : Option String :=
  match el.src with
  | some s => if s = "" then el.style else some s
  | none => el.style

/-- `src.split('("')[1].split('")')[0]`; `none` is the `IndexError` raised
when `'("'` does not occur in `src`. -/
def unwrapStyleUrl (src : List Char) : Option (List Char) :=
  match pySplit ['(', '"'] src with
  | _ :: second :: _ => some ((pySplit ['"', ')'] second).headD [])
  | _ => none

/-- The inner element loop of the images extraction: append each valid image
url (truthy src containing `"http"`, unwrapped from a style value when it
contains `"url("`) to the accumulator.  `none` is an uncaught `IndexError`
from the unwrap. -/
def imgsOfElems : List Element → List String → Option (List String)
  | [], acc => some acc
  | el :: rest, acc =>
    match elementSrc el with
    | none => imgsOfElems rest acc
    | some s =>
      if s ≠ "" ∧ hasSubS s "http" then
        if hasSubS s "url(" then
          match unwrapStyleUrl s.toList with
          | none => none
          | some inner => imgsOfElems rest (acc ++ [inner.asString])
        else imgsOfElems rest (acc ++ [s])
      else imgsOfElems rest acc

/-- The selector-group loop of the images extraction: groups share one
accumulator and the loop stops at the first group after which it is
non-empty. -/
def imagesLoop (env : Env) : List String → List String → Option (List String)
  | acc, [] => some acc
  | acc, sel :: rest =>
    match imgsOfElems (env sel) acc with
    | none => none
    | some acc' => if acc' ≠ [] then some acc' else imagesLoop env acc' rest

/-- `list(set(imgs))`: deduplication; Python's set iteration order is
unspecified, modelled here as first-occurrence order. -/
def pyDedupAux : List String → List String → List String
  | acc, [] => acc
  | acc, s :: rest => if s ∈ acc then pyDedupAux acc rest else pyDedupAux (acc ++ [s]) rest

/-- `list(set(l))` (membership-faithful; order is a modelling choice). -/
def pyDedup (l : List String) : List String := pyDedupAux [] l

/-- The dict built by `_scrape_page_content`: a field is `none` exactly when
its key is never set. -/
structure NoteData where
  title : Option String
  content : Option String
  likes : Option String
  collects : Option String
  comments : Option String
  author : Option String
  images : List String
deriving DecidableEq

/-- The record of a page with no selector match for any field. -/
def emptyNote : NoteData :=
  { title := none, content := none, likes := none, collects := none,
    comments := none, author := none, images := [] }

/-- `browser_manager._scrape_page_content`.  On an `IndexError` inside the
images unwrap the whole `try` aborts and the function returns the empty dict
(`except` branch), discarding the already-extracted fields. -/
def scrapePageContent (env : Env) : NoteData :=
  match imagesLoop env [] imageSelectors with
  | none => emptyNote
  | some imgs =>
    { title := firstMatchText env titleSelectors
      content := firstMatchText env contentSelectors
      likes := firstMatchText env likesSelectors
      collects := firstMatchText env collectsSelectors
      comments := firstMatchText env commentsSelectors
      author := firstMatchText env authorSelectors
      images := pyDedup imgs }

/-- Images as the claim words them: the first selector matching at least one
element supplies the value extracted from its own elements.  Written from the
claim, to be compared against `scrapePageContent`. -/
def imagesFirstMatchingSelector (env : Env) : List String :=
  match imageSelectors.find? (fun sel => !(env sel).isEmpty) with
  | none => []
  | some sel => pyDedup ((imgsOfElems (env sel) []).getD [])

/-- Images as the code computes them: the first selector group whose own
extraction is non-empty supplies the value; a group whose extraction crashes
aborts (`none`). -/
def firstValidImageGroup (env : Env) : List String → Option (List String)
  | [] => some []
  | sel :: rest =>
    match imgsOfElems (env sel) [] with
    | none => none
    | some [] => firstValidImageGroup env rest
    | some l => some l

/-- The note dict together with the `url` key that
`scrape_search_results_interactive` appends after extraction. -/
def optField (key : String) : Option String → List (String × Json)
  | some v => [(key, Json.str v)]
  | none => []

/-- JSON form of a scraped note once its `url` is attached. -/
def jsonOfNote (url : String) (d : NoteData) : Json :=
  Json.obj (optField "title" d.title ++ optField "content" d.content ++
    optField "likes" d.likes ++ optField "collects" d.collects ++
    optField "comments" d.comments ++ optField "author" d.author ++
    [("images", Json.arr (d.images.map Json.str)), ("url", Json.str url)])

/-! ### Search-result collection (browser_manager.scrape_search_results_interactive) -/

/-- One listing card as the loop reads it: the first anchor's `href`
(`none` when the card has no anchor, the attribute is null, or reading it
raised), and the outcome of opening and scraping it (`none` when navigation
or scraping raised after the url was recorded). -/
structure Card where
  href : Option String
  note : Option NoteData
deriving DecidableEq

/-- Absolute url of a card link. -/
def fullUrl (h : String) : String :=
  if startsWithL ['/'] h.toList then "https://www.xiaohongshu.com" ++ h else h

/-- Loop state: scraped records (with their urls), urls already processed,
and the number of scroll attempts so far. -/
structure ScrapeState where
  data : List (String × NoteData)
  processed : List String
  scrolls : Nat
deriving DecidableEq

/-- One iteration of the inner card loop: skip a card without a usable href,
a profile link, or an already-processed url; otherwise record the url as
processed (before scraping, so a failed scrape is never retried) and append
the scraped record when scraping succeeded. -/
def processCard : Card → ScrapeState → ScrapeState
  | ⟨none, _⟩, s => s
  | ⟨some h, note⟩, s =>
    if h = "" ∨ hasSubS h "user/profile" then s
    else if fullUrl h ∈ s.processed then s
    else
      match note with
      | none => { s with processed := s.processed ++ [fullUrl h] }
      | some d =>
        { s with processed := s.processed ++ [fullUrl h],
                 data := s.data ++ [(fullUrl h, d)] }

/-- The inner card loop: `if len(scraped_data) >= count: break` at the top of
each card body, then the per-card step. -/
def processCards (count : Nat) : List Card → ScrapeState → ScrapeState
  | [], s => s
  | card :: rest, s =>
    if s.data.length ≥ count then s
    else processCards count rest (processCard card s)

/-- The outer `while len(scraped_data) < count and attempts < 20` loop;
`passes i` is the card list the page yields on pass `i`, and each pass that
ends still short scrolls once and spends one attempt. -/
def searchLoop (count : Nat) (passes : Nat → List Card) :
    Nat → Nat → ScrapeState → ScrapeState
  | 0, _, s => s
  | fuel + 1, i, s =>
    if s.data.length < count then
      let s' := processCards count (passes i) s
      if s'.data.length < count then
        searchLoop count passes fuel (i + 1) { s' with scrolls := s'.scrolls + 1 }
      else s'
    else s

/-- `browser_manager.scrape_search_results_interactive`. -/
def scrapeSearchResults (count : Nat) (passes : Nat → List Card) : ScrapeState :=
  searchLoop count passes 20 0 { data := [], processed := [], scrolls := 0 }

/-- A concrete detail page on which the first image selector matches an
element that yields no valid image URL (its `src` lacks `"http"`), while the
second selector yields one. -/
def counterexamplePage : Env := fun sel =>
  if sel = ".carousel img" then [{ text := "", src := some "ftp://x", style := none }]
  else if sel = ".swiper-slide img" then [{ text := "", src := some "http://y", style := none }]
  else []

/-! ## Lemmas and claim theorems -/

/-! ### normalize_url -/

theorem matchLit_iff : ∀ (lit s r : List Char), matchLit lit s = some r ↔ s = lit ++ r := by
  intro lit
  induction lit with
  | nil => intro s r; simp [matchLit]
  | cons a l ih =>
    intro s r
    cases s with
    | nil => simp [matchLit]
    | cons b m =>
      by_cases hab : a = b
      · subst hab
        simp [matchLit, ih]
      · simp only [matchLit, if_neg hab, List.cons_append, List.cons.injEq]
        constructor
        · intro h; exact absurd h (by simp)
        · intro h; exact absurd h.1.symm hab

theorem takeWhile_eq_self_of_all {p : Char → Bool} :
    ∀ {l : List Char}, l.all p = true → l.takeWhile p = l := by
  intro l
  induction l with
  | nil => intro _; rfl
  | cons c cs ih =>
    intro h
    rw [List.all_cons] at h
    have h1 : p c = true := by
      cases hp : p c
      · rw [hp] at h; simp at h
      · rfl
    have h2 : cs.all p = true := by
      rw [h1] at h; simpa using h
    simp [List.takeWhile_cons, h1, ih h2]

theorem matchAt_self (lit run : List Char) (h1 : run ≠ [])
    (h2 : run.all isAlnumAscii = true) : matchAt lit (lit ++ run) = some (lit ++ run) := by
  unfold matchAt
  rw [(matchLit_iff lit (lit ++ run) run).mpr rfl]
  simp [takeWhile_eq_self_of_all h2, h1]

theorem searchPat_self (lit run : List Char) (hl : lit ≠ []) (h1 : run ≠ [])
    (h2 : run.all isAlnumAscii = true) : searchPat lit (lit ++ run) = some (lit ++ run) := by
  cases lit with
  | nil => exact absurd rfl hl
  | cons a l =>
    have hm := matchAt_self (a :: l) run h1 h2
    rw [List.cons_append] at hm
    rw [List.cons_append]
    simp [searchPat, hm]

theorem searchPat_shape {lit : List Char} :
    ∀ {s r : List Char}, searchPat lit s = some r →
      ∃ run, r = lit ++ run ∧ run ≠ [] ∧ run.all isAlnumAscii = true := by
  intro s
  induction s with
  | nil => intro r h; simp [searchPat] at h
  | cons c cs ih =>
    intro r h
    rw [searchPat] at h
    cases hm : matchAt lit (c :: cs) with
    | none =>
      rw [hm] at h
      exact ih h
    | some r' =>
      rw [hm] at h
      have hr : r' = r := by injection h
      subst hr
      unfold matchAt at hm
      cases hml : matchLit lit (c :: cs) with
      | none => rw [hml] at hm; exact absurd hm (by simp)
      | some rest =>
        rw [hml] at hm
        simp only at hm
        by_cases hemp : rest.takeWhile isAlnumAscii = []
        · rw [if_pos hemp] at hm; exact absurd hm (by simp)
        · rw [if_neg hemp] at hm
          injection hm with hm
          exact ⟨rest.takeWhile isAlnumAscii, hm.symm, hemp, List.all_takeWhile⟩

theorem matchAt_none_of {lit s : List Char} (h : ∀ t, s ≠ lit ++ t) :
    matchAt lit s = none := by
  unfold matchAt
  cases hm : matchLit lit s with
  | none => rfl
  | some rest => exact absurd ((matchLit_iff lit s rest).mp hm) (h rest)

theorem searchPat_all_alnum_none {lit : List Char} (hlit : lit.all isAlnumAscii = false) :
    ∀ {s : List Char}, s.all isAlnumAscii = true → searchPat lit s = none := by
  intro s
  induction s with
  | nil => intro _; rfl
  | cons c cs ih =>
    intro hall
    have hm : matchAt lit (c :: cs) = none := by
      apply matchAt_none_of
      intro t hteq
      have h2 : (lit ++ t).all isAlnumAscii = true := hteq ▸ hall
      rw [List.all_append] at h2
      rw [hlit] at h2
      simp at h2
    have htail : cs.all isAlnumAscii = true := by
      rw [List.all_cons] at hall
      exact (Bool.and_eq_true_iff.mp hall).2
    simp [searchPat, hm, ih htail]

theorem searchPat_append_none {lit run : List Char} :
    ∀ {xs : List Char},
      (∀ ys, (∃ t, t ++ ys = xs) → ys ≠ [] → matchAt lit (ys ++ run) = none) →
      searchPat lit run = none → searchPat lit (xs ++ run) = none := by
  intro xs
  induction xs with
  | nil =>
    intro _ h2
    simpa using h2
  | cons c cs ih =>
    intro h1 h2
    have hm : matchAt lit ((c :: cs) ++ run) = none := h1 (c :: cs) ⟨[], rfl⟩ (by simp)
    rw [List.cons_append] at hm
    rw [List.cons_append]
    simp only [searchPat, hm]
    exact ih (fun ys ht hne => h1 ys (by obtain ⟨t, ht'⟩ := ht; exact ⟨c :: t, by rw [← ht']; rfl⟩) hne) h2

theorem no_lit1_in_lit2 {run : List Char} (hrun : run.all isAlnumAscii = true) :
    searchPat LIT1 (LIT2 ++ run) = none := by
  apply searchPat_append_none
  · intro ys hys hne
    obtain ⟨t, ht⟩ := hys
    apply matchAt_none_of
    intro u hu
    have hysd : ys = LIT2.drop t.length := by rw [← ht, List.drop_left]
    have hlens : t.length + ys.length = 31 := by
      have hl := congrArg List.length ht
      simp at hl
      rw [show LIT2.length = 31 from rfl] at hl
      omega
    by_cases hlen : 24 ≤ ys.length
    · have h24 : (ys ++ run).take 24 = ys.take 24 := List.take_append_of_le_length hlen
      have h24' : (LIT1 ++ u).take 24 = LIT1 := List.take_left' rfl
      rw [hu, h24'] at h24
      have hdec : ∀ i, i < 8 → ¬ ((LIT2.drop i).take 24 = LIT1) := by decide
      exact hdec t.length (by omega) (by rw [← hysd, ← h24])
    · have hlen23 : ys.length ≤ 23 := by omega
      have hget : (ys ++ run)[23]? = (LIT1 ++ u)[23]? := by rw [hu]
      have hR : (LIT1 ++ u)[23]? = some '/' := by
        rw [List.getElem?_append_left (by rw [show LIT1.length = 24 from rfl]; omega)]
        rfl
      have hL : (ys ++ run)[23]? = run[23 - ys.length]? :=
        List.getElem?_append_right hlen23
      rw [hL, hR] at hget
      have hmem : '/' ∈ run := List.getElem?_mem hget
      have := List.all_eq_true.mp hrun '/' hmem
      simp [isAlnumAscii] at this
  · exact searchPat_all_alnum_none (by decide) hrun

theorem string_mk_ne_empty {r : List Char} (h : r ≠ []) : (⟨r⟩ : String) ≠ "" := by
  intro hc
  apply h
  have : (⟨r⟩ : String).toList = ("" : String).toList := by rw [hc]
  simpa using this

/-- `normalize_url` is idempotent: shared by C1 and C8. -/
theorem normalizeUrl_idem (u : String) : normalizeUrl (normalizeUrl u) = normalizeUrl u := by
  by_cases h0 : u = ""
  · subst h0; rfl
  · cases h1 : searchPat LIT1 u.toList with
    | some r =>
      obtain ⟨run, hr, hne, hall⟩ := searchPat_shape h1
      have hrne : r ≠ [] := by rw [hr]; simp [show LIT1 ≠ [] from by decide]
      have hnu : normalizeUrl u = ⟨r⟩ := by
        unfold normalizeUrl
        rw [if_neg h0, h1]
      have h2 : searchPat LIT1 r = some r := by
        rw [hr]; exact searchPat_self _ _ (by decide) hne hall
      rw [hnu]
      unfold normalizeUrl
      rw [if_neg (string_mk_ne_empty hrne)]
      rw [show (⟨r⟩ : String).toList = r from rfl, h2]
    | none =>
      cases h2 : searchPat LIT2 u.toList with
      | some r =>
        obtain ⟨run, hr, hne, hall⟩ := searchPat_shape h2
        have hrne : r ≠ [] := by rw [hr]; simp [show LIT2 ≠ [] from by decide]
        have hnu : normalizeUrl u = ⟨r⟩ := by
          unfold normalizeUrl
          rw [if_neg h0, h1, h2]
        have h3 : searchPat LIT1 r = none := by rw [hr]; exact no_lit1_in_lit2 hall
        have h4 : searchPat LIT2 r = some r := by
          rw [hr]; exact searchPat_self _ _ (by decide) hne hall
        rw [hnu]
        unfold normalizeUrl
        rw [if_neg (string_mk_ne_empty hrne)]
        rw [show (⟨r⟩ : String).toList = r from rfl, h3, h4]
      | none =>
        have hnu : normalizeUrl u = u := by
          unfold normalizeUrl
          rw [if_neg h0, h1, h2]
        rw [hnu]
        unfold normalizeUrl
        rw [if_neg h0, h1, h2]

/-- Claim C8: `normalize` is idempotent — `normalize(normalize(u)) == normalize(u)`
for every string; a URL matching one of the two known content-path shapes is
reduced to the matched canonical path segment (explore first, then
discovery/item), and a URL matching neither shape passes through unchanged. -/
theorem c8_normalize_idempotent :
    (∀ u : String, normalizeUrl (normalizeUrl u) = normalizeUrl u) ∧
    (∀ (u : String) (r : List Char), u ≠ "" → searchPat LIT1 u.toList = some r →
      normalizeUrl u = ⟨r⟩) ∧
    (∀ (u : String) (r : List Char), u ≠ "" → searchPat LIT1 u.toList = none →
      searchPat LIT2 u.toList = some r → normalizeUrl u = ⟨r⟩) ∧
    (∀ u : String, searchPat LIT1 u.toList = none → searchPat LIT2 u.toList = none →
      normalizeUrl u = u) := by
  refine ⟨normalizeUrl_idem, ?_, ?_, ?_⟩
  · intro u r h0 h1
    unfold normalizeUrl
    rw [if_neg h0, h1]
  · intro u r h0 h1 h2
    unfold normalizeUrl
    rw [if_neg h0, h1, h2]
  · intro u h1 h2
    by_cases h0 : u = ""
    · subst h0; rfl
    · unfold normalizeUrl
      rw [if_neg h0, h1, h2]

/-- Witness for C8 at concrete URLs of each kind. -/
theorem c8_normalize_idempotent_witness :
    normalizeUrl (normalizeUrl "https://www.xiaohongshu.com/explore/abc12?tok=q") =
      normalizeUrl "https://www.xiaohongshu.com/explore/abc12?tok=q" ∧
    normalizeUrl "https://www.xiaohongshu.com/explore/abc12?tok=q" =
      "xiaohongshu.com/explore/abc12" ∧
    normalizeUrl "https://www.xiaohongshu.com/discovery/item/xyz9?a=1" =
      "xiaohongshu.com/discovery/item/xyz9" ∧
    normalizeUrl "https://example.com/foo" = "https://example.com/foo" :=
  ⟨c8_normalize_idempotent.1 _,
   c8_normalize_idempotent.2.1 _ "xiaohongshu.com/explore/abc12".toList
     (by decide) (by decide),
   c8_normalize_idempotent.2.2.1 _ "xiaohongshu.com/discovery/item/xyz9".toList
     (by decide) (by decide) (by decide),
   c8_normalize_idempotent.2.2.2 _ (by decide) (by decide)⟩

/-! ### add_urls_to_pending (C1) -/

theorem addLoop_mem {scraped scrapedData S : List String} :
    ∀ {rest pend existing : List String} {n : Nat},
      (∀ v, v ∈ S → v ∈ existing) →
      ∀ {u}, u ∈ (addLoop scraped scrapedData rest pend existing n).1 →
        u ∈ pend ∨
          (normalizeUrl u ≠ "" ∧ normalizeUrl u ∉ S ∧ normalizeUrl u ∉ scraped ∧
            normalizeUrl u ∉ scrapedData) := by
  intro rest
  induction rest with
  | nil =>
    intro pend existing n hS u hu
    left
    simpa [addLoop] using hu
  | cons url tl ih =>
    intro pend existing n hS u hu
    simp only [addLoop] at hu
    by_cases hc : normalizeUrl url ≠ "" ∧ normalizeUrl url ∉ existing ∧
        normalizeUrl url ∉ scraped ∧ normalizeUrl url ∉ scrapedData
    · rw [if_pos hc] at hu
      have hS' : ∀ v, v ∈ S → v ∈ existing ++ [normalizeUrl url] := by
        intro v hv
        exact List.mem_append.mpr (Or.inl (hS v hv))
      cases ih hS' hu with
      | inl hin =>
        rcases List.mem_append.mp hin with h | h
        · left; exact h
        · have hequ : u = url := by simpa using h
          subst hequ
          right
          exact ⟨hc.1, fun hmem => hc.2.1 (hS _ hmem), hc.2.2.1, hc.2.2.2⟩
      | inr hcond => right; exact hcond
    · rw [if_neg hc] at hu
      exact ih hS hu

theorem addUrlsToPending_urls (urls : List String) (keyword now : String)
    (pending : PendingData) (storeUrls : List String) :
    (addUrlsToPending urls keyword now pending storeUrls).1.urls =
      (addLoop pending.scraped_urls (storeUrls.map normalizeUrl) urls
        pending.urls pending.urls 0).1 := by
  by_cases hk : keyword = "" <;> by_cases hc : pending.created_at = "" <;>
    simp [addUrlsToPending, hk, hc]

/-- Claim C1: every URL that `add_urls_to_pending` appends to the pending
frontier has a non-empty normalized key that is absent from the pending list,
absent from the scraped set, absent from the normalized url set of the Result
Store, and (consequently, by idempotence of `normalize_url`) absent from the
Result Store's raw url set. -/
theorem c1_add_candidates_dedup (urls : List String) (keyword now : String)
    (pending : PendingData) (storeUrls : List String) (u : String)
    (hin : u ∈ (addUrlsToPending urls keyword now pending storeUrls).1.urls)
    (hnew : u ∉ pending.urls) :
    normalizeUrl u ≠ "" ∧ normalizeUrl u ∉ pending.urls ∧
      normalizeUrl u ∉ pending.scraped_urls ∧
      normalizeUrl u ∉ storeUrls.map normalizeUrl ∧
      normalizeUrl u ∉ storeUrls := by
  rw [addUrlsToPending_urls] at hin
  have h := addLoop_mem (S := pending.urls) (fun v hv => hv) hin
  cases h with
  | inl h => exact absurd h hnew
  | inr h =>
    refine ⟨h.1, h.2.1, h.2.2.1, h.2.2.2, ?_⟩
    intro hmem
    apply h.2.2.2
    have : normalizeUrl (normalizeUrl u) ∈ storeUrls.map normalizeUrl :=
      List.mem_map_of_mem normalizeUrl hmem
    rwa [normalizeUrl_idem] at this

/-- Witness for C1: a concrete admission satisfying every absence condition. -/
theorem c1_add_candidates_dedup_witness :
    normalizeUrl "https://www.xiaohongshu.com/explore/new1?q=2" ≠ "" ∧
    normalizeUrl "https://www.xiaohongshu.com/explore/new1?q=2" ∉
      ["https://www.xiaohongshu.com/explore/old"] ∧
    normalizeUrl "https://www.xiaohongshu.com/explore/new1?q=2" ∉
      ["xiaohongshu.com/explore/done"] ∧
    normalizeUrl "https://www.xiaohongshu.com/explore/new1?q=2" ∉
      (["https://www.xiaohongshu.com/explore/stored?a=1"].map normalizeUrl) ∧
    normalizeUrl "https://www.xiaohongshu.com/explore/new1?q=2" ∉
      ["https://www.xiaohongshu.com/explore/stored?a=1"] :=
  c1_add_candidates_dedup
    ["https://www.xiaohongshu.com/explore/new1?q=2",
     "https://www.xiaohongshu.com/explore/done?t=1",
     "https://www.xiaohongshu.com/explore/stored?z=9"]
    "kw" "NOW"
    { keyword := "", created_at := "",
      urls := ["https://www.xiaohongshu.com/explore/old"],
      scraped_urls := ["xiaohongshu.com/explore/done"] }
    ["https://www.xiaohongshu.com/explore/stored?a=1"]
    "https://www.xiaohongshu.com/explore/new1?q=2"
    (by decide) (by decide)

/-! ### parse_count (C3) -/

theorem parseCount_nonneg : ∀ (s : String) (n : Int), parseCount s = some n → 0 ≤ n := by
  intro s n h
  unfold parseCount at h
  by_cases h0 : s = ""
  · rw [if_pos h0] at h
    injection h with h
    omega
  · rw [if_neg h0] at h
    simp only at h
    split at h
    · split at h
      · split at h
        · injection h with h
          rw [← h]
          exact Int.ofNat_nonneg _
        · exact absurd h (by simp)
      · injection h with h
        omega
    · split at h
      · split at h
        · split at h
          · injection h with h
            rw [← h]
            exact Int.ofNat_nonneg _
          · exact absurd h (by simp)
        · injection h with h
          omega
      · split at h
        · injection h with h
          rw [← h]
          exact Int.ofNat_nonneg _
        · injection h with h
          omega

/-- Counterexample to C3 as stated: `parse_count` does not return an integer
for every input string.  On `"1.2.3万"` the token `"1.2.3"` captured by
`[\d.]+` makes `float` raise an uncaught `ValueError` (modelled as `none`),
instead of yielding 0 for unparseable text. -/
theorem c3_parse_count_counterexample :
    parseCount "1.2.3万" = none ∧
      ∀ n : Int, ¬ (parseCount "1.2.3万" = some n ∧ 0 ≤ n) := by
  have h : parseCount "1.2.3万" = none := by decide
  exact ⟨h, fun n hn => by rw [h] at hn; exact absurd hn.1 (by simp)⟩

/-- Claim C3, amended: whenever `parse_count` returns (it raises `ValueError`
exactly when the leading `[\d.]+` token of a string containing 万 or 亿 is
not a valid decimal numeral), the result is a non-negative integer; a 万
string multiplies the leading numeric value by 10,000, an 亿 string by
100,000,000, a plain digit string parses directly, and empty or unparseable
text yields 0 — in particular at the five inputs named by the claim. -/
theorem c3_parse_count_amended :
    (∀ (s : String) (n : Int), parseCount s = some n → 0 ≤ n) ∧
    parseCount "1.2万" = some 12000 ∧
    parseCount "3亿" = some 300000000 ∧
    parseCount "42" = some 42 ∧
    parseCount "" = some 0 ∧
    parseCount "abc" = some 0 :=
  ⟨parseCount_nonneg, by decide, by decide, by decide, by decide, by decide⟩

/-- Witness for C3 (amended): the universally quantified conjunct applied at
a concrete returning input. -/
theorem c3_parse_count_amended_witness : (0 : Int) ≤ 70000 :=
  c3_parse_count_amended.1 "7万" 70000 (by decide)

/-! ### Corruption-tolerant loads (C4) -/

/-- On the exception classes the scraper loaders catch, the refined reader
agrees with the `FileState` loader that `saveToJson` builds on. -/
theorem readExistingData_eq_loadExistingData :
    ∀ (f : FileRead) (fs : FileState), f.caught = some fs →
      readExistingData f = some (loadExistingData fs) := by
  intro f fs h
  cases f with
  | missing => injection h with h; rw [← h]; rfl
  | ioError => injection h with h; rw [← h]; rfl
  | undecodable => exact absurd h (by simp [FileRead.caught])
  | invalidJson => injection h with h; rw [← h]; rfl
  | parsed j => injection h with h; rw [← h]; cases j <;> rfl

/-- Counterexample to C4 as stated: a present result-store or frontier file
whose bytes are not valid UTF-8 makes `json.load` raise `UnicodeDecodeError`,
which `load_existing_data` and `load_pending_urls` do not catch
(`except (json.JSONDecodeError, IOError)`), so those loads raise (`none`)
instead of returning the freshly initialized default — while the progress
load's bare `except:` does return its fresh default there. -/
theorem c4_load_defaults_counterexample :
    readExistingData FileRead.undecodable = none ∧
    readPendingUrls FileRead.undecodable = none ∧
    readExistingData FileRead.undecodable ≠ some [] ∧
    readPendingUrls FileRead.undecodable ≠ some defaultPendingJson ∧
    readProgress 7 FileRead.undecodable = defaultProgress 7 :=
  ⟨rfl, rfl, by simp [readExistingData], by simp [readPendingUrls], rfl⟩

/-- Claim C4, amended: the progress load (bare `except:`) returns a freshly
initialized default for every non-dict outcome without raising; the
result-store and frontier loaders return their fresh defaults when the file
is missing, open/read raises `OSError`, the text is empty or not valid JSON,
or the value has the wrong shape — but not when a present file is
undecodable as UTF-8, where `UnicodeDecodeError` propagates uncaught. -/
theorem c4_load_defaults_amended (f : FileRead) (tk : Int) :
    ((∀ xs, f ≠ FileRead.parsed (Json.arr xs)) → f ≠ FileRead.undecodable →
      readExistingData f = some []) ∧
    ((∀ fs, f ≠ FileRead.parsed (Json.obj fs)) → f ≠ FileRead.undecodable →
      readPendingUrls f = some defaultPendingJson) ∧
    ((∀ fs, f ≠ FileRead.parsed (Json.obj fs)) →
      readProgress tk f = defaultProgress tk) := by
  refine ⟨?_, ?_, ?_⟩
  · intro h hu
    cases f with
    | missing => rfl
    | ioError => rfl
    | undecodable => exact absurd rfl hu
    | invalidJson => rfl
    | parsed j => cases j <;> first | rfl | exact absurd rfl (h _)
  · intro h hu
    cases f with
    | missing => rfl
    | ioError => rfl
    | undecodable => exact absurd rfl hu
    | invalidJson => rfl
    | parsed j => cases j <;> first | rfl | exact absurd rfl (h _)
  · intro h
    cases f with
    | missing => rfl
    | ioError => rfl
    | undecodable => rfl
    | invalidJson => rfl
    | parsed j => cases j <;> first | rfl | exact absurd rfl (h _)

/-- Witness for C4 (amended): caught read failures and wrong-shape files all
load as fresh defaults. -/
theorem c4_load_defaults_amended_witness :
    readExistingData FileRead.invalidJson = some [] ∧
    readPendingUrls FileRead.ioError = some defaultPendingJson ∧
    readProgress 7 FileRead.undecodable = defaultProgress 7 ∧
    readExistingData (FileRead.parsed (Json.obj [])) = some [] ∧
    readPendingUrls (FileRead.parsed (Json.str "oops")) = some defaultPendingJson ∧
    readProgress 7 (FileRead.parsed (Json.num 3)) = defaultProgress 7 ∧
    readExistingData FileRead.missing = some [] :=
  ⟨(c4_load_defaults_amended FileRead.invalidJson 7).1 (by simp) (by simp),
   (c4_load_defaults_amended FileRead.ioError 7).2.1 (by simp) (by simp),
   (c4_load_defaults_amended FileRead.undecodable 7).2.2 (by simp),
   (c4_load_defaults_amended (FileRead.parsed (Json.obj [])) 7).1 (by simp) (by simp),
   (c4_load_defaults_amended (FileRead.parsed (Json.str "oops")) 7).2.1 (by simp) (by simp),
   (c4_load_defaults_amended (FileRead.parsed (Json.num 3)) 7).2.2 (by simp),
   (c4_load_defaults_amended FileRead.missing 7).1 (by simp) (by simp)⟩

/-! ### Result-store merge (C2) -/

mutual

theorem Json.beq_refl : (j : Json) → Json.beq j j = true
  | .null => rfl
  | .bool _ => by simp [Json.beq]
  | .num _ => by simp [Json.beq]
  | .str _ => by simp [Json.beq]
  | .arr xs => by simp [Json.beq, Json.beqList_refl xs]
  | .obj xs => by simp [Json.beq, Json.beqFields_refl xs]

theorem Json.beqList_refl : (xs : List Json) → Json.beqList xs xs = true
  | [] => rfl
  | x :: xs => by simp [Json.beqList, Json.beq_refl x, Json.beqList_refl xs]

theorem Json.beqFields_refl : (xs : List (String × Json)) → Json.beqFields xs xs = true
  | [] => rfl
  | (_, v) :: xs => by simp [Json.beqFields, Json.beq_refl v, Json.beqFields_refl xs]

end

/-- Claim C2: merging a record (a dict, as the merge loop guarantees) into
the Result Store appends it iff no existing dict entry has an equal url and
is a no-op otherwise; merging the same record twice equals merging it once;
and the no-two-records-share-a-url invariant is preserved. -/
theorem c2_merge_result_idempotent (s : List Json) (r : Json)
    (hobj : r.isObj = true) (hnd : NoDupUrls s) :
    mergeResult (mergeResult s r) r = mergeResult s r ∧
    NoDupUrls (mergeResult s r) ∧
    ((∀ h ∈ s, ¬ (h.isObj = true ∧ Json.beq (pyGet h "url") (pyGet r "url") = true)) →
      mergeResult s r = s ++ [r]) ∧
    ((∃ h ∈ s, h.isObj = true ∧ Json.beq (pyGet h "url") (pyGet r "url") = true) →
      mergeResult s r = s) := by
  by_cases hp : s.any (fun h => h.isObj && Json.beq (pyGet h "url") (pyGet r "url")) = true
  · have h1 : mergeResult s r = s := by rw [mergeResult, if_pos hp]
    refine ⟨by rw [h1, h1], by rw [h1]; exact hnd, ?_, fun _ => h1⟩
    intro hnone
    obtain ⟨h, hmem, hh⟩ := List.any_eq_true.mp hp
    rw [Bool.and_eq_true_iff] at hh
    exact absurd ⟨hh.1, hh.2⟩ (hnone h hmem)
  · have h1 : mergeResult s r = s ++ [r] := by rw [mergeResult, if_neg hp]
    have hnoclash : ∀ h ∈ s, ¬ urlClash h r := by
      intro h hmem hcl
      exact hp (List.any_eq_true.mpr ⟨h, hmem, Bool.and_eq_true_iff.mpr ⟨hcl.1, hcl.2.2⟩⟩)
    refine ⟨?_, ?_, fun _ => h1, ?_⟩
    · rw [h1, mergeResult, if_pos]
      apply List.any_eq_true.mpr
      exact ⟨r, List.mem_append.mpr (Or.inr (List.mem_singleton.mpr rfl)),
        Bool.and_eq_true_iff.mpr ⟨hobj, Json.beq_refl _⟩⟩
    · rw [h1]
      rw [NoDupUrls, List.pairwise_append]
      exact ⟨hnd, List.pairwise_singleton _ _,
        fun a ha b hb => (List.mem_singleton.mp hb) ▸ hnoclash a ha⟩
    · intro ⟨h, hmem, hh⟩
      exact absurd ⟨hh.1, hobj, hh.2⟩ (hnoclash h hmem)

/-- Witness for C2 at a concrete store and record. -/
theorem c2_merge_result_idempotent_witness :
    (mergeResult (mergeResult [Json.obj [("url", Json.str "A")]]
        (Json.obj [("url", Json.str "B")])) (Json.obj [("url", Json.str "B")]) =
      mergeResult [Json.obj [("url", Json.str "A")]] (Json.obj [("url", Json.str "B")])) ∧
    NoDupUrls (mergeResult [Json.obj [("url", Json.str "A")]]
      (Json.obj [("url", Json.str "B")])) ∧
    ((∀ h ∈ [Json.obj [("url", Json.str "A")]],
        ¬ (h.isObj = true ∧
          Json.beq (pyGet h "url") (pyGet (Json.obj [("url", Json.str "B")]) "url") = true)) →
      mergeResult [Json.obj [("url", Json.str "A")]] (Json.obj [("url", Json.str "B")]) =
        [Json.obj [("url", Json.str "A")]] ++ [Json.obj [("url", Json.str "B")]]) ∧
    ((∃ h ∈ [Json.obj [("url", Json.str "A")]],
        h.isObj = true ∧
          Json.beq (pyGet h "url") (pyGet (Json.obj [("url", Json.str "B")]) "url") = true) →
      mergeResult [Json.obj [("url", Json.str "A")]] (Json.obj [("url", Json.str "B")]) =
        [Json.obj [("url", Json.str "A")]]) :=
  c2_merge_result_idempotent [Json.obj [("url", Json.str "A")]]
    (Json.obj [("url", Json.str "B")]) rfl
    (by rw [NoDupUrls]; exact List.pairwise_singleton _ _)

/-! ### save_to_json (C10) -/

/-- Counterexample to C10 as stated: when the stored list also contains a
non-dict entry, a call whose record url already appears in a stored dict
raises `AttributeError` inside the url-set comprehension (modelled `none`)
instead of returning `(False, skip-message)` — although, as it happens,
still without writing. -/
theorem c10_save_to_json_counterexample :
    saveToJson (Json.obj [("url", Json.str "U")])
      (some (some (Json.arr [Json.num 1, Json.obj [("url", Json.str "U")]]))) = none ∧
    (Json.obj [("url", Json.str "U")]) ∈
      loadExistingData
        (some (some (Json.arr [Json.num 1, Json.obj [("url", Json.str "U")]]))) ∧
    ∀ (f' : FileState) (b : Bool) (msg : String),
      saveToJson (Json.obj [("url", Json.str "U")])
        (some (some (Json.arr [Json.num 1, Json.obj [("url", Json.str "U")]]))) ≠
        some (f', b, msg) := by
  refine ⟨rfl, by simp [loadExistingData], ?_⟩
  intro f' b msg h
  rw [show saveToJson (Json.obj [("url", Json.str "U")])
      (some (some (Json.arr [Json.num 1, Json.obj [("url", Json.str "U")]]))) = none
    from rfl] at h
  exact absurd h (by simp)

/-- Claim C10, amended: provided every stored entry is a dict with a hashable
url value and the record carries a hashable url (otherwise the call raises,
still writing nothing), `save_to_json` returns `(False, skip-message)` and
leaves the persisted store file completely untouched when the record's url
already appears among the stored urls, and rewrites the file with the
appended list and returns `(True, count-message)` exactly when the url is
new. -/
theorem c10_save_to_json_frame (note : Json) (file : FileState) (u : Json)
    (hall : (loadExistingData file).all
      (fun item => item.isObj && (pyGet item "url").isHashable) = true)
    (hu : Json.get note "url" = some u) (huh : u.isHashable = true) :
    ((loadExistingData file).any (fun item => Json.beq (pyGet item "url") u) = true →
      saveToJson note file = some (file, false, "该笔记已存在，跳过保存")) ∧
    ((loadExistingData file).any (fun item => Json.beq (pyGet item "url") u) = false →
      saveToJson note file =
        some (some (some (Json.arr (loadExistingData file ++ [note]))), true,
          "共 " ++ toString (loadExistingData file ++ [note]).length ++ " 条")) := by
  constructor
  · intro hdup
    unfold saveToJson
    rw [if_pos hall, hu]
    simp only
    rw [if_pos huh, if_pos hdup]
  · intro hnew
    unfold saveToJson
    rw [if_pos hall, hu]
    simp only
    rw [if_pos huh, if_neg (by rw [hnew]; simp)]

/-- Witness for C10 (amended), both branches at a concrete store. -/
theorem c10_save_to_json_frame_witness :
    saveToJson (Json.obj [("url", Json.str "U")])
        (some (some (Json.arr [Json.obj [("url", Json.str "U")]]))) =
      some (some (some (Json.arr [Json.obj [("url", Json.str "U")]])), false,
        "该笔记已存在，跳过保存") ∧
    saveToJson (Json.obj [("url", Json.str "V")])
        (some (some (Json.arr [Json.obj [("url", Json.str "U")]]))) =
      some (some (some (Json.arr [Json.obj [("url", Json.str "U")],
        Json.obj [("url", Json.str "V")]])), true, "共 2 条") :=
  ⟨(c10_save_to_json_frame (Json.obj [("url", Json.str "U")])
      (some (some (Json.arr [Json.obj [("url", Json.str "U")]])))
      (Json.str "U") rfl rfl rfl).1 rfl,
   (c10_save_to_json_frame (Json.obj [("url", Json.str "V")])
      (some (some (Json.arr [Json.obj [("url", Json.str "U")]])))
      (Json.str "V") rfl rfl rfl).2 rfl⟩

/-! ### Progress update (C7) -/

theorem lookupField_setAssoc_self (fs : List (String × Json)) (k : String) (v : Json) :
    lookupField (setAssoc fs k v) k = some v := by
  induction fs with
  | nil => simp [setAssoc, lookupField]
  | cons p rest ih =>
    obtain ⟨k', w⟩ := p
    by_cases h : k' = k
    · subst h; simp [setAssoc, lookupField]
    · simp [setAssoc, lookupField, h, ih]

theorem lookupField_setAssoc_other (fs : List (String × Json)) (k k' : String) (v : Json)
    (h : k' ≠ k) : lookupField (setAssoc fs k v) k' = lookupField fs k' := by
  induction fs with
  | nil => simp [setAssoc, lookupField, Ne.symm h]
  | cons p rest ih =>
    obtain ⟨k0, w⟩ := p
    by_cases h0 : k0 = k
    · subst h0
      simp [setAssoc, lookupField, Ne.symm h]
    · simp [setAssoc, lookupField, h0, ih]

theorem setField_isObj (p : Json) (k : String) (v : Json) (hp : p.isObj = true) :
    (p.setField k v).isObj = true := by
  cases p <;> simp_all [Json.isObj, Json.setField]

theorem get_setField_self (p : Json) (k : String) (v : Json) (hp : p.isObj = true) :
    Json.get (p.setField k v) k = some v := by
  cases p <;> simp_all [Json.isObj, Json.setField, Json.get, lookupField_setAssoc_self]

theorem get_setField_other (p : Json) (k k' : String) (v : Json) (hp : p.isObj = true)
    (h : k' ≠ k) : Json.get (p.setField k v) k' = Json.get p k' := by
  cases p <;> simp_all [Json.isObj, Json.setField, Json.get, lookupField_setAssoc_other _ _ _ _ h]

theorem progressCompleted_update (p : Json) (keyword : String) (t : Int)
    (hp : p.isObj = true) :
    progressCompleted (updateProgress p keyword t) =
      (if (progressCompleted p).any (fun j => Json.beq j (Json.str keyword)) then
        progressCompleted p
      else progressCompleted p ++ [Json.str keyword]) := by
  unfold updateProgress
  rw [progressCompleted]
  rw [get_setField_other _ _ _ _ (setField_isObj p _ _ hp) (by decide)]
  rw [get_setField_self p _ _ hp]

/-- Claim C7: the progress update adds the completed keyword at most once —
a second call for the same keyword leaves `completed_keywords` unchanged,
and when the keyword occurred at most once before, it occurs exactly once
after — the previous list is always a prefix of the new one (monotonic
growth), while `total_keywords` is overwritten with the caller-supplied
value on every call (last-write-wins). -/
theorem c7_progress_update (p : Json) (keyword : String) (t t' : Int)
    (hp : p.isObj = true) :
    (progressCompleted (updateProgress (updateProgress p keyword t) keyword t') =
      progressCompleted (updateProgress p keyword t)) ∧
    (countKw keyword (progressCompleted p) ≤ 1 →
      countKw keyword (progressCompleted (updateProgress p keyword t)) = 1) ∧
    Json.get (updateProgress p keyword t) "total_keywords" = some (Json.num t) ∧
    (∃ tail, progressCompleted p ++ tail = progressCompleted (updateProgress p keyword t)) := by
  have hobj1 : (updateProgress p keyword t).isObj = true :=
    setField_isObj _ _ _ (setField_isObj p _ _ hp)
  have h1 := progressCompleted_update p keyword t hp
  have h2 := progressCompleted_update (updateProgress p keyword t) keyword t' hobj1
  refine ⟨?_, ?_, ?_, ?_⟩
  · by_cases hany : (progressCompleted p).any (fun j => Json.beq j (Json.str keyword)) = true
    · have hC : progressCompleted (updateProgress p keyword t) = progressCompleted p := by
        rw [h1, if_pos hany]
      rw [h2, hC, if_pos hany]
    · have hC : progressCompleted (updateProgress p keyword t) =
          progressCompleted p ++ [Json.str keyword] := by
        rw [h1, if_neg hany]
      have hany2 : (progressCompleted p ++ [Json.str keyword]).any
          (fun j => Json.beq j (Json.str keyword)) = true :=
        List.any_eq_true.mpr ⟨Json.str keyword,
          List.mem_append.mpr (Or.inr (List.mem_singleton.mpr rfl)), Json.beq_refl _⟩
      rw [h2, hC, if_pos hany2]
  · intro hle
    rw [h1]
    by_cases hany : (progressCompleted p).any (fun j => Json.beq j (Json.str keyword)) = true
    · rw [if_pos hany]
      obtain ⟨j, hmem, hj⟩ := List.any_eq_true.mp hany
      have hpos : 0 < countKw keyword (progressCompleted p) :=
        List.countP_pos_iff.mpr ⟨j, hmem, hj⟩
      omega
    · rw [if_neg hany]
      have hzero : countKw keyword (progressCompleted p) = 0 := by
        apply List.countP_eq_zero.mpr
        intro j hmem
        intro hj
        exact hany (List.any_eq_true.mpr ⟨j, hmem, hj⟩)
      rw [countKw, List.countP_append]
      rw [countKw] at hzero
      rw [hzero]
      simp [Json.beq_refl]
  · unfold updateProgress
    exact get_setField_self _ _ _ (setField_isObj p _ _ hp)
  · rw [h1]
    by_cases hany : (progressCompleted p).any (fun j => Json.beq j (Json.str keyword)) = true
    · rw [if_pos hany]; exact ⟨[], by simp⟩
    · rw [if_neg hany]; exact ⟨[Json.str keyword], rfl⟩

/-- Witness for C7 at a concrete progress dict. -/
theorem c7_progress_update_witness :
    (progressCompleted (updateProgress (updateProgress (defaultProgress 10) "k" 7) "k" 9) =
      progressCompleted (updateProgress (defaultProgress 10) "k" 7)) ∧
    countKw "k" (progressCompleted (updateProgress (defaultProgress 10) "k" 7)) = 1 ∧
    Json.get (updateProgress (defaultProgress 10) "k" 7) "total_keywords" =
      some (Json.num 7) ∧
    (∃ tail, progressCompleted (defaultProgress 10) ++ tail =
      progressCompleted (updateProgress (defaultProgress 10) "k" 7)) :=
  have h := c7_progress_update (defaultProgress 10) "k" 7 9 rfl
  ⟨h.1, h.2.1 (by decide), h.2.2.1, h.2.2.2⟩

/-! ### Keyword loader (C6) -/

theorem parseKeywords_eq_filterMap (txt : String) :
    parseKeywords (some txt) = (pyLines txt).filterMap parseKwLine := by
  have hgen : ∀ (lines : List String) (acc : List KeywordItem),
      lines.foldl
        (fun acc line =>
          match parseKwLine line with
          | some item => acc ++ [item]
          | none => acc) acc = acc ++ lines.filterMap parseKwLine := by
    intro lines
    induction lines with
    | nil => intro acc; simp
    | cons l tl ih =>
      intro acc
      rw [List.foldl_cons]
      cases h : parseKwLine l with
      | none => simp only [h]; rw [ih]; simp [List.filterMap_cons, h]
      | some item => simp only [h]; rw [ih]; simp [List.filterMap_cons, h]
  unfold parseKeywords
  simpa using hgen (pyLines txt) []

/-- Claim C6: the keyword loader skips blank and `#` lines, strips a leading
`- ` marker, splits on the first `:` into name and optional count with the
configured default on a missing or unparseable count, yields `[]` for a
missing file, and preserves source order (it is the in-order `filterMap` of
the per-line parser); on the claim's concrete input it yields exactly
`[{失眠, 10}, {放松, DEFAULT}]`. -/
theorem c6_keyword_loader :
    parseKeywords none = [] ∧
    parseKeywords (some "- 失眠: 10\n# comment\n\n放松") =
      [{ keyword := "失眠", count := 10 },
       { keyword := "放松", count := MAX_NOTES_PER_KEYWORD }] ∧
    (∀ txt, parseKeywords (some txt) = (pyLines txt).filterMap parseKwLine) ∧
    (∀ line, stripL line.toList = [] ∨ (stripL line.toList).headD ' ' = '#' →
      parseKwLine line = none) := by
  refine ⟨rfl, by decide, parseKeywords_eq_filterMap, ?_⟩
  intro line h
  unfold parseKwLine
  rcases h with h | h
  · rw [if_pos h]
  · by_cases h0 : stripL line.toList = []
    · rw [if_pos h0]
    · rw [if_neg h0, if_pos h]

/-- Witness for C6's line-skip conjunct at concrete lines. -/
theorem c6_keyword_loader_witness :
    parseKwLine "   " = none ∧ parseKwLine "# note" = none :=
  ⟨c6_keyword_loader.2.2.2 "   " (Or.inl (by decide)),
   c6_keyword_loader.2.2.2 "# note" (Or.inr (by decide))⟩

/-! ### Detail extraction (C5) -/

theorem imagesLoop_eq_firstValid (env : Env) :
    ∀ sels, imagesLoop env [] sels = firstValidImageGroup env sels := by
  intro sels
  induction sels with
  | nil => rfl
  | cons sel rest ih =>
    rw [imagesLoop, firstValidImageGroup]
    cases h : imgsOfElems (env sel) [] with
    | none => rfl
    | some acc' =>
      cases acc' with
      | nil => simpa using ih
      | cons a t => simp

theorem firstMatchText_none (env : Env) :
    ∀ sels, (∀ s ∈ sels, env s = []) → firstMatchText env sels = none := by
  intro sels
  induction sels with
  | nil => intro _; rfl
  | cons sel rest ih =>
    intro h
    rw [firstMatchText]
    rw [h sel (List.mem_cons_self _ _)]
    exact ih fun s hs => h s (List.mem_cons_of_mem _ hs)

theorem imagesLoop_nil (env : Env) :
    ∀ sels, (∀ s ∈ sels, env s = []) → imagesLoop env [] sels = some [] := by
  intro sels
  induction sels with
  | nil => intro _; rfl
  | cons sel rest ih =>
    intro h
    rw [imagesLoop, h sel (List.mem_cons_self _ _)]
    simpa [imgsOfElems] using ih fun s hs => h s (List.mem_cons_of_mem _ hs)

/-- Counterexample to C5 as stated: for the `images` field, the first
selector matching at least one element does not supply the value — the code
moves past a matching group that yields no valid image URL and takes a later
group instead. -/
theorem c5_first_match_counterexample :
    (scrapePageContent counterexamplePage).images = ["http://y"] ∧
    imagesFirstMatchingSelector counterexamplePage = [] ∧
    counterexamplePage ".carousel img" ≠ [] ∧
    (scrapePageContent counterexamplePage).images ≠
      imagesFirstMatchingSelector counterexamplePage :=
  ⟨by decide, by decide, by decide, by decide⟩

/-- Claim C5, amended: a page with no selector match for any field still
yields the all-default record; the six text fields take the first selector
matching at least one element (first-match-wins) and are left unset when no
selector matches, provided the images extraction does not raise; `images`
comes from the first selector group whose own extraction yields a value
(deduplicated), not merely the first group matching elements; and a record —
the all-default record included — is handed on by the collection loop and
appended by the store merge, never dropped. -/
theorem c5_detail_extraction (env : Env) :
    ((∀ s, env s = []) → scrapePageContent env = emptyNote) ∧
    (imagesLoop env [] imageSelectors ≠ none →
      ((scrapePageContent env).title = firstMatchText env titleSelectors ∧
       (scrapePageContent env).content = firstMatchText env contentSelectors ∧
       (scrapePageContent env).likes = firstMatchText env likesSelectors ∧
       (scrapePageContent env).collects = firstMatchText env collectsSelectors ∧
       (scrapePageContent env).comments = firstMatchText env commentsSelectors ∧
       (scrapePageContent env).author = firstMatchText env authorSelectors)) ∧
    (∀ sels, (∀ s ∈ sels, env s = []) → firstMatchText env sels = none) ∧
    (∀ l, firstValidImageGroup env imageSelectors = some l →
      (scrapePageContent env).images = pyDedup l) ∧
    (scrapeSearchResults 1
        (fun _ => [{ href := some "/explore/x", note := some emptyNote }])).data =
      [("https://www.xiaohongshu.com/explore/x", emptyNote)] ∧
    mergeResult [] (jsonOfNote "https://www.xiaohongshu.com/explore/x" emptyNote) =
      [jsonOfNote "https://www.xiaohongshu.com/explore/x" emptyNote] := by
  refine ⟨?_, ?_, firstMatchText_none env, ?_, by decide, rfl⟩
  · intro hz
    have himg : imagesLoop env [] imageSelectors = some [] :=
      imagesLoop_nil env _ fun s _ => hz s
    rw [scrapePageContent, himg]
    simp only
    rw [firstMatchText_none env _ fun s _ => hz s,
        firstMatchText_none env _ fun s _ => hz s,
        firstMatchText_none env _ fun s _ => hz s,
        firstMatchText_none env _ fun s _ => hz s,
        firstMatchText_none env _ fun s _ => hz s,
        firstMatchText_none env _ fun s _ => hz s]
    rfl
  · intro hne
    cases himg : imagesLoop env [] imageSelectors with
    | none => exact absurd himg hne
    | some imgs =>
      rw [scrapePageContent, himg]
      exact ⟨rfl, rfl, rfl, rfl, rfl, rfl⟩
  · intro l hl
    rw [← imagesLoop_eq_firstValid] at hl
    rw [scrapePageContent, hl]

/-- Witness for C5 (amended) at the all-empty page. -/
theorem c5_detail_extraction_witness :
    scrapePageContent (fun _ => []) = emptyNote ∧
    (scrapePageContent (fun _ => [])).title = firstMatchText (fun _ => []) titleSelectors ∧
    firstMatchText (fun _ => []) titleSelectors = none ∧
    (scrapePageContent (fun _ => [])).images = pyDedup [] :=
  have h := c5_detail_extraction (fun _ => [])
  ⟨h.1 fun _ => rfl,
   (h.2.1 (by decide)).1,
   h.2.2.1 titleSelectors fun s _ => rfl,
   h.2.2.2.1 [] (by decide)⟩

/-! ### Listing collection (C9) -/

/-- Invariant of the collection loop state. -/
def GoodState (count : Nat) (s : ScrapeState) : Prop :=
  s.data.length ≤ count ∧
  (s.data.map Prod.fst).Nodup ∧
  (∀ p ∈ s.data, p.1 ∈ s.processed) ∧
  (∀ p ∈ s.data, ∃ h, p.1 = fullUrl h ∧ h ≠ "" ∧ hasSubS h "user/profile" = false)

theorem processCard_scrolls (card : Card) (s : ScrapeState) :
    (processCard card s).scrolls = s.scrolls := by
  rcases card with ⟨href, note⟩
  cases href with
  | none => rfl
  | some h =>
    cases note with
    | none =>
      rw [processCard]
      by_cases hskip : h = "" ∨ hasSubS h "user/profile" = true
      · rw [if_pos hskip]
      · rw [if_neg hskip]
        by_cases hproc : fullUrl h ∈ s.processed
        · rw [if_pos hproc]
        · rw [if_neg hproc]
    | some d =>
      rw [processCard]
      by_cases hskip : h = "" ∨ hasSubS h "user/profile" = true
      · rw [if_pos hskip]
      · rw [if_neg hskip]
        by_cases hproc : fullUrl h ∈ s.processed
        · rw [if_pos hproc]
        · rw [if_neg hproc]

theorem processCard_invariant (count : Nat) (card : Card) (s : ScrapeState)
    (hlt : s.data.length < count) (hs : GoodState count s) :
    GoodState count (processCard card s) := by
  rcases card with ⟨href, note⟩
  cases href with
  | none => exact hs
  | some h =>
    cases note with
    | none =>
      rw [processCard]
      by_cases hskip : h = "" ∨ hasSubS h "user/profile" = true
      · rw [if_pos hskip]; exact hs
      · rw [if_neg hskip]
        by_cases hproc : fullUrl h ∈ s.processed
        · rw [if_pos hproc]; exact hs
        · rw [if_neg hproc]
          refine ⟨hs.1, hs.2.1, ?_, hs.2.2.2⟩
          intro p hp
          exact List.mem_append.mpr (Or.inl (hs.2.2.1 p hp))
    | some d =>
      rw [processCard]
      by_cases hskip : h = "" ∨ hasSubS h "user/profile" = true
      · rw [if_pos hskip]; exact hs
      · rw [if_neg hskip]
        by_cases hproc : fullUrl h ∈ s.processed
        · rw [if_pos hproc]; exact hs
        · rw [if_neg hproc]
          push_neg at hskip
          have hnotin : fullUrl h ∉ s.data.map Prod.fst := by
            intro hmem
            obtain ⟨p, hp, hfst⟩ := List.mem_map.mp hmem
            exact hproc (hfst ▸ hs.2.2.1 p hp)
          refine ⟨?_, ?_, ?_, ?_⟩
          · simp only [List.length_append, List.length_cons, List.length_nil]
            omega
          · rw [List.map_append]
            apply List.Nodup.append hs.2.1 (List.nodup_singleton _)
            intro a ha hb
            have hae : a = fullUrl h := by simpa using hb
            subst hae
            exact hnotin ha
          · intro p hp
            rcases List.mem_append.mp hp with h1 | h1
            · exact List.mem_append.mpr (Or.inl (hs.2.2.1 p h1))
            · have hpe : p = (fullUrl h, d) := by simpa using h1
              rw [hpe]
              exact List.mem_append.mpr (Or.inr (List.mem_singleton.mpr rfl))
          · intro p hp
            rcases List.mem_append.mp hp with h1 | h1
            · exact hs.2.2.2 p h1
            · have hpe : p = (fullUrl h, d) := by simpa using h1
              rw [hpe]
              exact ⟨h, rfl, hskip.1, by simpa using hskip.2⟩

theorem processCards_scrolls (count : Nat) :
    ∀ (cards : List Card) (s : ScrapeState),
      (processCards count cards s).scrolls = s.scrolls := by
  intro cards
  induction cards with
  | nil => intro s; rfl
  | cons card rest ih =>
    intro s
    rw [processCards]
    by_cases hge : s.data.length ≥ count
    · rw [if_pos hge]
    · rw [if_neg hge]
      rw [ih]
      exact processCard_scrolls card s

theorem processCards_invariant (count : Nat) :
    ∀ (cards : List Card) (s : ScrapeState),
      GoodState count s → GoodState count (processCards count cards s) := by
  intro cards
  induction cards with
  | nil => intro s hs; exact hs
  | cons card rest ih =>
    intro s hs
    rw [processCards]
    by_cases hge : s.data.length ≥ count
    · rw [if_pos hge]; exact hs
    · rw [if_neg hge]
      exact ih _ (processCard_invariant count card s (by omega) hs)

theorem searchLoop_invariant (count : Nat) (passes : Nat → List Card) :
    ∀ (fuel i : Nat) (s : ScrapeState),
      GoodState count s → GoodState count (searchLoop count passes fuel i s) := by
  intro fuel
  induction fuel with
  | zero => intro i s hs; exact hs
  | succ fuel ih =>
    intro i s hs
    rw [searchLoop]
    by_cases hlt : s.data.length < count
    · rw [if_pos hlt]
      have h1 := processCards_invariant count (passes i) s hs
      by_cases hlt2 : (processCards count (passes i) s).data.length < count
      · rw [if_pos hlt2]
        exact ih _ _ ⟨h1.1, h1.2.1, h1.2.2.1, h1.2.2.2⟩
      · rw [if_neg hlt2]; exact h1
    · rw [if_neg hlt]; exact hs

theorem searchLoop_scrolls (count : Nat) (passes : Nat → List Card) :
    ∀ (fuel i : Nat) (s : ScrapeState),
      (searchLoop count passes fuel i s).scrolls ≤ s.scrolls + fuel := by
  intro fuel
  induction fuel with
  | zero => intro i s; simp [searchLoop]
  | succ fuel ih =>
    intro i s
    rw [searchLoop]
    by_cases hlt : s.data.length < count
    · rw [if_pos hlt]
      by_cases hlt2 : (processCards count (passes i) s).data.length < count
      · rw [if_pos hlt2]
        rw [processCards_scrolls]
        have h1 := ih (i + 1)
          { processCards count (passes i) s with scrolls := s.scrolls + 1 }
        simp only at h1
        omega
      · rw [if_neg hlt2]
        rw [processCards_scrolls]
        omega
    · rw [if_neg hlt]
      omega

theorem searchLoop_empty_passes (count : Nat) :
    ∀ (fuel i : Nat) (s : ScrapeState),
      (searchLoop count (fun _ => []) fuel i s).data = s.data := by
  intro fuel
  induction fuel with
  | zero => intro i s; rfl
  | succ fuel ih =>
    intro i s
    rw [searchLoop]
    by_cases hlt : s.data.length < count
    · rw [if_pos hlt]
      have hpc : processCards count ((fun _ => ([] : List Card)) i) s = s := rfl
      rw [hpc, if_pos hlt]
      exact ih (i + 1) _
    · rw [if_neg hlt]

/-- Claim C9: for every target count ≥ 1 and every page behaviour, the
collection loop terminates within its bounded pass budget making at most 20
scroll attempts, returns at most `count` records, never returns the same url
twice, excludes profile links and cards without a usable href, and returns
whatever accumulated — the empty accumulation included — as a normal value,
never as a failure. -/
theorem c9_listing_collection (count : Nat) (_hc : 1 ≤ count) (passes : Nat → List Card) :
    (scrapeSearchResults count passes).data.length ≤ count ∧
    (scrapeSearchResults count passes).scrolls ≤ 20 ∧
    ((scrapeSearchResults count passes).data.map Prod.fst).Nodup ∧
    (∀ p ∈ (scrapeSearchResults count passes).data,
      ∃ h, p.1 = fullUrl h ∧ h ≠ "" ∧ hasSubS h "user/profile" = false) ∧
    (scrapeSearchResults count (fun _ => [])).data = [] := by
  have hinv := searchLoop_invariant count passes 20 0
    { data := [], processed := [], scrolls := 0 }
    ⟨by simp, List.nodup_nil, by simp, by simp⟩
  have hscr := searchLoop_scrolls count passes 20 0 { data := [], processed := [], scrolls := 0 }
  exact ⟨hinv.1, by simpa using hscr, hinv.2.1, hinv.2.2.2,
    searchLoop_empty_passes count 20 0 _⟩

/-- Witness for C9 at a concrete count and page behaviour. -/
theorem c9_listing_collection_witness :
    (scrapeSearchResults 2 (fun _ =>
      [{ href := some "/explore/a", note := some emptyNote },
       { href := some "/user/profile/x", note := some emptyNote },
       { href := some "/explore/a", note := some emptyNote },
       { href := some "/explore/b", note := none }])).data.length ≤ 2 ∧
    (scrapeSearchResults 2 (fun _ =>
      [{ href := some "/explore/a", note := some emptyNote },
       { href := some "/user/profile/x", note := some emptyNote },
       { href := some "/explore/a", note := some emptyNote },
       { href := some "/explore/b", note := none }])).scrolls ≤ 20 ∧
    ((scrapeSearchResults 2 (fun _ =>
      [{ href := some "/explore/a", note := some emptyNote },
       { href := some "/user/profile/x", note := some emptyNote },
       { href := some "/explore/a", note := some emptyNote },
       { href := some "/explore/b", note := none }])).data.map Prod.fst).Nodup ∧
    (∀ p ∈ (scrapeSearchResults 2 (fun _ =>
      [{ href := some "/explore/a", note := some emptyNote },
       { href := some "/user/profile/x", note := some emptyNote },
       { href := some "/explore/a", note := some emptyNote },
       { href := some "/explore/b", note := none }])).data,
      ∃ h, p.1 = fullUrl h ∧ h ≠ "" ∧ hasSubS h "user/profile" = false) ∧
    (scrapeSearchResults 2 (fun _ => ([] : List Card))).data = [] :=
  c9_listing_collection 2 (by decide) _
